import Mathlib

/-!
Verification development for the `acquisitions-jsm` repository.

It shallowly embeds the two executable components of the repository:
the cookie policy helper (`src/utils/cookies.js`) and the HTTP smoke
test harness (`src/app.test.js`).  JavaScript values are modelled by a
small universe `JsValue`; JavaScript objects by association lists in
which a later entry for a key shadows an earlier one, exactly as
property assignment order does in an object literal such as
`{ ...a, ...b }`.  Property access on `undefined`/`null` raises a
`TypeError`, as in JavaScript.
-/

set_option maxHeartbeats 1000000

namespace Acquisitions

/-- Universe of the JavaScript values the two components manipulate. -/
inductive JsValue where
  | undefined
  | null
  | bool (b : Bool)
  | num (n : Int)
  | str (s : String)
  | obj (fields : List (String × JsValue))

/-- A JavaScript object, as the ordered list of its property assignments.
A later entry for the same key shadows an earlier one, matching the
evaluation order of an object literal with spreads. -/
abbrev JsObject := List (String × JsValue)

/-- Property read on an object: the value of the last assignment to the
key, or `undefined` when the key was never assigned. -/
def getProp (o : JsObject) (k : String) : JsValue :=
  o.foldl (fun acc p => if p.1 == k then p.2 else acc) JsValue.undefined

/-- Whether the object has an own property named `k` (`k in o`). -/
def hasKey (o : JsObject) (k : String) : Bool :=
  o.any (fun p => p.1 == k)

/-- The object literal `{ ...a, ...b }`: assigns all of `a`'s entries,
then all of `b`'s, so `b` shadows `a` on key collisions. -/
def spread (a b : JsObject) : JsObject := a ++ b

/-- Errors JavaScript evaluation can raise in the modelled code. -/
inductive JsError where
  | typeError
  | syntaxError

/-- Property read on a boxed string primitive: `length`, a character at
a numeric index, and `undefined` for every other name. -/
def strProp (s : String) (k : String) : JsValue :=
  if k == "length" then .num (s.length : Int)
  else
    match k.toNat? with
    | some i =>
        match s.data.get? i with
        | some c => .str (String.singleton c)
        | none => .undefined
    | none => .undefined

/-- The JavaScript expression `v[k]`: raises a `TypeError` on
`undefined`/`null`, reads a property on objects, boxes primitives. -/
def jsIndex (v : JsValue) (k : String) : Except JsError JsValue :=
  match v with
  | .undefined => .error .typeError
  | .null => .error .typeError
  | .obj fields => .ok (getProp fields k)
  | .str s => .ok (strProp s k)
  | .bool _ => .ok .undefined
  | .num _ => .ok .undefined

/-- JavaScript truthiness of a value. -/
def truthy : JsValue → Bool
  | .undefined => false
  | .null => false
  | .bool b => b
  | .num n => n != 0
  | .str s => s != ""
  | .obj _ => true

/-- The JavaScript test `typeof v === "number"`. -/
def isNumber : JsValue → Bool
  | .num _ => true
  | _ => false

/-- Strict equality `v === s` against a string literal `s`: only a
string primitive with the same characters compares equal. -/
def strictEqStr (v : JsValue) (s : String) : Bool :=
  match v with
  | .str t => t == s
  | _ => false

/-- A cookie directive recorded on the outgoing response: what
`res.cookie` / `res.clearCookie` were instructed to do, including the
full attribute object they received. -/
inductive ResOp where
  | setCookie (name value : String) (opts : JsObject)
  | clearCookie (name : String) (opts : JsObject)

namespace cookies

/-- `cookies.getOptions` from `src/utils/cookies.js`: the four cookie
attributes, with `secure` computed from the current
`process.env.NODE_ENV` (passed here as `env`, `none` when unset). -/
def getOptions (env : Option String) : JsObject :=
  [("httpOnly", .bool true),
   ("secure", .bool (env == some "production")),
   ("sameSite", .str "strict"),
   ("maxAge", .num (15 * 60 * 1000))]

/-- `cookies.set`: instructs the response to store the cookie under
`{ ...cookies.getOptions(), ...options }`.  The response is modelled as
the list of directives issued to it so far.  The source gives `options`
the default `{}`; callers that omit it pass `[]` here. -/
def set (env : Option String) (res : List ResOp) (name value : String)
    (options : JsObject) : List ResOp :=
  res ++ [.setCookie name value (spread (getOptions env) options)]

/-- `cookies.clear`: instructs the response to expire the cookie, with
the same merged attribute object. -/
def clear (env : Option String) (res : List ResOp) (name : String)
    (options : JsObject) : List ResOp :=
  res ++ [.clearCookie name (spread (getOptions env) options)]

/-- `cookies.get`: the expression `req.cookie[name]`, two chained
property reads on the request object. -/
def get (req : JsObject) (name : String) : Except JsError JsValue :=
  jsIndex (getProp req "cookie") name

end cookies

/-- Folding the property-assignment step over entries none of which
bind `k` leaves the accumulator unchanged. -/
theorem foldl_prop_of_not_hasKey (o : JsObject) (k : String) (init : JsValue)
    (h : hasKey o k = false) :
    o.foldl (fun acc p => if p.1 == k then p.2 else acc) init = init := by
  induction o generalizing init with
  | nil => rfl
  | cons p rest ih =>
      simp only [hasKey, List.any_cons, Bool.or_eq_false_iff] at h
      rw [List.foldl_cons, if_neg (by simp [h.1])]
      exact ih init h.2

/-- Folding the property-assignment step over entries at least one of
which binds `k` forgets the accumulator. -/
theorem foldl_prop_of_hasKey (o : JsObject) (k : String) (x y : JsValue)
    (h : hasKey o k = true) :
    o.foldl (fun acc p => if p.1 == k then p.2 else acc) x
      = o.foldl (fun acc p => if p.1 == k then p.2 else acc) y := by
  induction o generalizing x y with
  | nil => simp [hasKey] at h
  | cons p rest ih =>
      by_cases hp : (p.1 == k) = true
      · rw [List.foldl_cons, List.foldl_cons, if_pos hp, if_pos hp]
      · simp only [hasKey, List.any_cons] at h
        have hp : (p.1 == k) = false := Bool.eq_false_iff.mpr hp
        simp only [hp, Bool.false_or] at h
        rw [List.foldl_cons, List.foldl_cons, if_neg (by simp [hp]),
          if_neg (by simp [hp])]
        exact ih x y h

/-- Reading a key the right operand of a spread binds yields the right
operand's value (override wins). -/
theorem getProp_spread_right (a b : JsObject) (k : String)
    (h : hasKey b k = true) :
    getProp (spread a b) k = getProp b k := by
  unfold getProp spread
  rw [List.foldl_append]
  exact foldl_prop_of_hasKey b k _ _ h

/-- Reading a key the right operand of a spread does not bind falls
through to the left operand (default survives). -/
theorem getProp_spread_left (a b : JsObject) (k : String)
    (h : hasKey b k = false) :
    getProp (spread a b) k = getProp a k := by
  unfold getProp spread
  rw [List.foldl_append]
  exact foldl_prop_of_not_hasKey b k _ h

/-- A spread has a key exactly when either operand has it. -/
theorem hasKey_spread (a b : JsObject) (k : String) :
    hasKey (spread a b) k = (hasKey a k || hasKey b k) := by
  unfold hasKey spread
  exact List.any_append

/-- Reading a key absent from an object yields `undefined`. -/
theorem getProp_of_not_hasKey (o : JsObject) (k : String)
    (h : hasKey o k = false) : getProp o k = JsValue.undefined :=
  foldl_prop_of_not_hasKey o k JsValue.undefined h

/-- The `secure` default is the boolean of `env === "production"`. -/
theorem getOptions_secure (env : Option String) :
    getProp (cookies.getOptions env) "secure"
      = JsValue.bool (env == some "production") := rfl

/-- C1: `getOptions()` always returns `httpOnly = true`,
`sameSite = "strict"`, `maxAge = 900000` milliseconds, and `secure`
true exactly when the environment flag at call time is `"production"`
(false for every other value, including absent); the function is pure,
so it has no inputs beyond the ambient flag, no failure modes and no
side effects. -/
theorem getOptions_attributes (env : Option String) :
    getProp (cookies.getOptions env) "httpOnly" = JsValue.bool true ∧
    getProp (cookies.getOptions env) "sameSite" = JsValue.str "strict" ∧
    getProp (cookies.getOptions env) "maxAge" = JsValue.num 900000 ∧
    (getProp (cookies.getOptions env) "secure" = JsValue.bool true
      ↔ env = some "production") ∧
    (env ≠ some "production" →
      getProp (cookies.getOptions env) "secure" = JsValue.bool false) := by
  refine ⟨rfl, rfl, rfl, ?_, ?_⟩
  · rw [getOptions_secure]
    simp [JsValue.bool.injEq]
  · intro h
    rw [getOptions_secure]
    exact congrArg JsValue.bool (beq_eq_false_iff_ne.mpr h)

/-- Witness for C1 at the two concrete environment flags. -/
theorem getOptions_attributes_witness :
    getProp (cookies.getOptions (some "production")) "secure"
        = JsValue.bool true ∧
    getProp (cookies.getOptions none) "secure" = JsValue.bool false :=
  ⟨(getOptions_attributes (some "production")).2.2.2.1.mpr rfl,
   (getOptions_attributes none).2.2.2.2 (by simp)⟩

/-- C8: two calls of `getOptions` under an unchanged environment flag
return objects that are equal outright, hence equal on every property;
the result is recomputed from `env` on each call, never cached. -/
theorem getOptions_idempotent (env1 env2 : Option String) (h : env1 = env2) :
    cookies.getOptions env1 = cookies.getOptions env2 ∧
    ∀ k, getProp (cookies.getOptions env1) k
      = getProp (cookies.getOptions env2) k := by
  subst h
  exact ⟨rfl, fun _ => rfl⟩

/-- Witness for C8 with the flag absent on both calls. -/
theorem getOptions_idempotent_witness :
    cookies.getOptions none = cookies.getOptions none :=
  (getOptions_idempotent none none rfl).1

/-- C3: `set` and `clear` hand the response exactly the merge of the
defaults with the caller's overrides; on a key the overrides bind the
merged value is the override's, and on any other key it is the
default's. -/
theorem merge_override_precedence (env : Option String) (res : List ResOp)
    (name value : String) (options : JsObject) (k : String) :
    ∃ m, cookies.set env res name value options
        = res ++ [ResOp.setCookie name value m] ∧
      cookies.clear env res name options
        = res ++ [ResOp.clearCookie name m] ∧
      (hasKey options k = true → getProp m k = getProp options k) ∧
      (hasKey options k = false →
        getProp m k = getProp (cookies.getOptions env) k) := by
  refine ⟨spread (cookies.getOptions env) options, rfl, rfl, ?_, ?_⟩
  · exact getProp_spread_right _ _ _
  · exact getProp_spread_left _ _ _

/-- Witness for C3: a `maxAge` override wins over the default. -/
theorem merge_override_precedence_witness :
    ∃ m, cookies.set none [] "token" "abc" [("maxAge", JsValue.num 5)]
        = [ResOp.setCookie "token" "abc" m] ∧
      getProp m "maxAge" = JsValue.num 5 := by
  obtain ⟨m, hs, _, hov, _⟩ :=
    merge_override_precedence none [] "token" "abc"
      [("maxAge", JsValue.num 5)] "maxAge"
  exact ⟨m, hs, (hov rfl).trans rfl⟩

/-- C9: whatever the overrides, the merged attribute object that `set`
hands to `res.cookie` and `clear` hands to `res.clearCookie` still has
all four policy keys: an override can replace a value but never remove
a key. -/
theorem merged_keeps_policy_keys (env : Option String) (res : List ResOp)
    (name value : String) (options : JsObject) :
    ∃ m, cookies.set env res name value options
        = res ++ [ResOp.setCookie name value m] ∧
      cookies.clear env res name options
        = res ++ [ResOp.clearCookie name m] ∧
      hasKey m "httpOnly" = true ∧ hasKey m "secure" = true ∧
      hasKey m "sameSite" = true ∧ hasKey m "maxAge" = true := by
  refine ⟨spread (cookies.getOptions env) options, rfl, rfl, ?_, ?_, ?_, ?_⟩
  · rw [hasKey_spread, show hasKey (cookies.getOptions env) "httpOnly" = true
      from rfl, Bool.true_or]
  · rw [hasKey_spread, show hasKey (cookies.getOptions env) "secure" = true
      from rfl, Bool.true_or]
  · rw [hasKey_spread, show hasKey (cookies.getOptions env) "sameSite" = true
      from rfl, Bool.true_or]
  · rw [hasKey_spread, show hasKey (cookies.getOptions env) "maxAge" = true
      from rfl, Bool.true_or]

/-- C2 counterexample: on a request without any `cookie` property —
one that exposes no parsed cookie collection — `get` raises a
`TypeError` instead of yielding `undefined`. -/
theorem get_without_collection_counterexample :
    cookies.get [] "token" = Except.error JsError.typeError ∧
    cookies.get [] "token" ≠ Except.ok JsValue.undefined := by
  refine ⟨rfl, ?_⟩
  intro h
  rw [show cookies.get [] "token" = Except.error JsError.typeError from rfl]
    at h
  exact Except.noConfusion h

/-- C2 amended: when the request's `cookie` property is absent (reads
as `undefined`) or holds `null`, `get` raises a `TypeError` rather
than yielding `undefined`. -/
theorem get_without_collection (req : JsObject) (name : String)
    (h : getProp req "cookie" = JsValue.undefined
      ∨ getProp req "cookie" = JsValue.null) :
    cookies.get req name = Except.error JsError.typeError := by
  unfold cookies.get
  rcases h with h | h <;> rw [h] <;> rfl

/-- Witness for the amended C2 on the empty request object. -/
theorem get_without_collection_witness :
    cookies.get [] "token" = Except.error JsError.typeError :=
  get_without_collection [] "token" (Or.inl rfl)

/-- C7: when the request does expose a parsed cookie collection and the
requested name is not in it, `get` returns `undefined` without raising
an error. -/
theorem get_absent_name (req fields : JsObject) (name : String)
    (hc : getProp req "cookie" = JsValue.obj fields)
    (hn : hasKey fields name = false) :
    cookies.get req name = Except.ok JsValue.undefined := by
  unfold cookies.get
  rw [hc]
  simp [jsIndex, getProp_of_not_hasKey fields name hn]

/-- Witness for C7: an empty parsed collection and the name `token`. -/
theorem get_absent_name_witness :
    cookies.get [("cookie", JsValue.obj [])] "token"
      = Except.ok JsValue.undefined :=
  get_absent_name [("cookie", JsValue.obj [])] [] "token" rfl rfl

/-- A heap of JavaScript objects; a reference is an index into it.
This refines the object model just enough to talk about mutation of a
caller-supplied object. -/
structure Store where
  objs : List JsObject

/-- Allocation of a fresh object, returning the new store and the
reference to the new object. -/
def alloc (s : Store) (o : JsObject) : Store × Nat :=
  (⟨s.objs ++ [o]⟩, s.objs.length)

/-- Dereferencing a store reference. -/
def deref (s : Store) (r : Nat) : JsObject :=
  s.objs.getD r []

/-- A response directive whose attribute object lives in the store. -/
inductive ResOpRef where
  | setCookie (name value : String) (optsRef : Nat)
  | clearCookie (name : String) (optsRef : Nat)

/-- `cookies.set` again, now with the caller's `options` object passed
by reference into an explicit store: the object literal
`{ ...cookies.getOptions(), ...options }` reads `options` and
allocates a fresh merged object; no reference is ever written. -/
def setWithStore (env : Option String) (s : Store) (res : List ResOpRef)
    (name value : String) (optionsRef : Nat) : Store × List ResOpRef :=
  let merged := spread (cookies.getOptions env) (deref s optionsRef)
  let a := alloc s merged
  (a.1, res ++ [.setCookie name value a.2])

/-- `cookies.clear` in the same store-passing refinement. -/
def clearWithStore (env : Option String) (s : Store) (res : List ResOpRef)
    (name : String) (optionsRef : Nat) : Store × List ResOpRef :=
  let merged := spread (cookies.getOptions env) (deref s optionsRef)
  let a := alloc s merged
  (a.1, res ++ [.clearCookie name a.2])

/-- C10: `set` and `clear` never mutate the caller's overrides object.
After either call the overrides reference dereferences to exactly the
entries it held before; the merged attributes live in a freshly
allocated object, at a reference distinct from the overrides'. -/
theorem overrides_not_mutated (env : Option String) (s : Store)
    (res : List ResOpRef) (name value : String) (optRef : Nat)
    (h : optRef < s.objs.length) :
    deref (setWithStore env s res name value optRef).1 optRef
        = deref s optRef ∧
    deref (clearWithStore env s res name optRef).1 optRef
        = deref s optRef ∧
    (setWithStore env s res name value optRef).2
        = res ++ [ResOpRef.setCookie name value s.objs.length] ∧
    (clearWithStore env s res name optRef).2
        = res ++ [ResOpRef.clearCookie name s.objs.length] ∧
    s.objs.length ≠ optRef := by
  refine ⟨?_, ?_, rfl, rfl, fun he => absurd h (by rw [he]; exact lt_irrefl _)⟩
  · exact List.getD_append _ _ _ _ h
  · exact List.getD_append _ _ _ _ h

/-- Witness for C10 on a one-object store. -/
theorem overrides_not_mutated_witness :
    deref (setWithStore none ⟨[[("maxAge", JsValue.num 5)]]⟩ [] "token"
      "abc" 0).1 0 = [("maxAge", JsValue.num 5)] :=
  ((overrides_not_mutated none ⟨[[("maxAge", JsValue.num 5)]]⟩ [] "token"
    "abc" 0 (by decide)).1).trans rfl

/-- What a test in `src/app.test.js` receives from `makeRequest`: the
status code, the response headers, and the body as a raw string. -/
structure Response where
  statusCode : Nat
  headers : List (String × String)
  data : String

/-- How a test terminates: success is `Except.ok ()`, an `assert`
mismatch is `assertionError`, and any JavaScript error thrown while
the body runs (for instance by `JSON.parse`) is `thrown`. -/
inductive TestFailure where
  | assertionError
  | thrown (e : JsError)

/-- The fixed test port from `src/app.test.js` (`const port = 3001`). -/
def port : Nat := 3001

/-- The request options object built inside `makeRequest`. -/
structure RequestOptions where
  hostname : String
  port : Nat
  path : String
  method : String
  headers : List (String × String)

/-- What the transport layer does with the single request `makeRequest`
issues: either a connection-level error, or a response delivered as a
status code, headers, and a sequence of body chunks. -/
inductive TransportOutcome where
  | connError (e : String)
  | response (statusCode : Nat) (headers : List (String × String))
      (chunks : List String)

/-- `makeRequest` from `src/app.test.js`: builds the options object,
issues one request, accumulates `data += chunk` per chunk, resolves on
`end` with `{statusCode, headers, data}`, and rejects with the
transport error on `error`.  The pair returned is the options of the
single request issued together with how the promise settles. -/
def makeRequest (path : String) (outcome : TransportOutcome) :
    RequestOptions × Except String Response :=
  ({ hostname := "localhost", port := port, path := path, method := "GET",
     headers := [("Content-Type", "application/json")] },
   match outcome with
   | .connError e => .error e
   | .response sc hs chunks =>
       .ok { statusCode := sc, headers := hs,
             data := chunks.foldl (fun d c => d ++ c) "" })

/-- The body of `it("should respond to health check")`: the sequence
of `assert` calls, each short-circuiting the test when it fails, with
`JSON.parse` passed in as `parse` and property reads raising as in
JavaScript. -/
def healthTest (parse : String → Except JsError JsValue) (r : Response) :
    Except TestFailure Unit :=
  if r.statusCode == 200 then
    match parse r.data with
    | .error e => .error (.thrown e)
    | .ok data =>
        match jsIndex data "status" with
        | .error e => .error (.thrown e)
        | .ok st =>
            if strictEqStr st "OK" then
              match jsIndex data "timestamp" with
              | .error e => .error (.thrown e)
              | .ok ts =>
                  if truthy ts then
                    match jsIndex data "uptime" with
                    | .error e => .error (.thrown e)
                    | .ok up =>
                        if isNumber up then .ok ()
                        else .error .assertionError
                  else .error .assertionError
            else .error .assertionError
  else .error .assertionError

/-- The body of `it("should respond to root endpoint")`. -/
def rootTest (r : Response) : Except TestFailure Unit :=
  if r.statusCode == 200 then
    if r.data == "Hello from acquisitions api" then .ok ()
    else .error .assertionError
  else .error .assertionError

/-- The body of `it("should respond to API endpoint")`. -/
def apiTest (parse : String → Except JsError JsValue) (r : Response) :
    Except TestFailure Unit :=
  if r.statusCode == 200 then
    match parse r.data with
    | .error e => .error (.thrown e)
    | .ok data =>
        match jsIndex data "message" with
        | .error e => .error (.thrown e)
        | .ok msg =>
            if strictEqStr msg "Aquisitions API is running!" then .ok ()
            else .error .assertionError
  else .error .assertionError

/-- Strict equality against a string literal holds exactly for that
string value. -/
theorem strictEqStr_iff (v : JsValue) (s : String) :
    strictEqStr v s = true ↔ v = JsValue.str s := by
  cases v <;> simp [strictEqStr]

/-- The health-check test passes exactly on a 200 whose body parses to
a value with `status === "OK"`, a truthy `timestamp`, and a numeric
`uptime`. -/
theorem healthTest_ok_iff (parse : String → Except JsError JsValue)
    (r : Response) :
    healthTest parse r = Except.ok () ↔
      r.statusCode = 200 ∧ ∃ j, parse r.data = .ok j ∧
        jsIndex j "status" = .ok (JsValue.str "OK") ∧
        (∃ t, jsIndex j "timestamp" = .ok t ∧ truthy t = true) ∧
        (∃ u, jsIndex j "uptime" = .ok u ∧ isNumber u = true) := by
  unfold healthTest
  by_cases hsc : r.statusCode = 200
  · simp only [hsc, beq_self_eq_true, if_true]
    rcases hp : parse r.data with e | j
    · simp [hp]
    · simp only [hp]
      rcases hst : jsIndex j "status" with e | st
      · simp [hst]
      · by_cases hok : st = JsValue.str "OK"
        · subst hok
          rcases hts : jsIndex j "timestamp" with e | ts
          · simp [hst, hts, strictEqStr]
          · by_cases htr : truthy ts = true
            · rcases hup : jsIndex j "uptime" with e | up
              · simp [hst, hts, htr, hup, strictEqStr]
              · by_cases hnum : isNumber up = true
                · simp [hst, hts, htr, hup, hnum, strictEqStr]
                · simp [hst, hts, htr, hup, hnum, strictEqStr]
            · simp [hst, hts, htr, strictEqStr]
        · have hne : strictEqStr st "OK" = false :=
            Bool.eq_false_iff.mpr (fun hh => hok ((strictEqStr_iff st "OK").mp hh))
          simp [hst, hne, hok]
  · simp [hsc]

/-- The root-endpoint test passes exactly on a 200 whose body is the
literal greeting string. -/
theorem rootTest_ok_iff (r : Response) :
    rootTest r = Except.ok () ↔
      r.statusCode = 200 ∧ r.data = "Hello from acquisitions api" := by
  unfold rootTest
  by_cases hsc : r.statusCode = 200
  · by_cases hd : r.data = "Hello from acquisitions api"
    · simp [hsc, hd]
    · simp [hsc, hd]
  · simp [hsc]

/-- The API-endpoint test passes exactly on a 200 whose body parses to
a value with `message === "Aquisitions API is running!"`. -/
theorem apiTest_ok_iff (parse : String → Except JsError JsValue)
    (r : Response) :
    apiTest parse r = Except.ok () ↔
      r.statusCode = 200 ∧ ∃ j, parse r.data = .ok j ∧
        jsIndex j "message" = .ok (JsValue.str "Aquisitions API is running!") := by
  unfold apiTest
  by_cases hsc : r.statusCode = 200
  · simp only [hsc, beq_self_eq_true, if_true]
    rcases hp : parse r.data with e | j
    · simp [hp]
    · simp only [hp]
      rcases hm : jsIndex j "message" with e | msg
      · simp [hm]
      · by_cases hok : msg = JsValue.str "Aquisitions API is running!"
        · subst hok
          simp [hm, strictEqStr]
        · have hne : strictEqStr msg "Aquisitions API is running!" = false :=
            Bool.eq_false_iff.mpr
              (fun hh => hok ((strictEqStr_iff msg _).mp hh))
          simp [hm, hne, hok]
  · simp [hsc]

/-- C4: each of the three harness tests passes exactly under the
response shape the spec states — `/health` needs a 200 and a JSON body
with `status === "OK"`, a truthy `timestamp` and a numeric `uptime`;
`/` needs a 200 and the exact literal greeting; `/api` needs a 200 and
a JSON body with `message === "Aquisitions API is running!"`. -/
theorem harness_assertions (parse : String → Except JsError JsValue)
    (rh rr ra : Response) :
    (healthTest parse rh = Except.ok () ↔
      rh.statusCode = 200 ∧ ∃ j, parse rh.data = .ok j ∧
        jsIndex j "status" = .ok (JsValue.str "OK") ∧
        (∃ t, jsIndex j "timestamp" = .ok t ∧ truthy t = true) ∧
        (∃ u, jsIndex j "uptime" = .ok u ∧ isNumber u = true)) ∧
    (rootTest rr = Except.ok () ↔
      rr.statusCode = 200 ∧ rr.data = "Hello from acquisitions api") ∧
    (apiTest parse ra = Except.ok () ↔
      ra.statusCode = 200 ∧ ∃ j, parse ra.data = .ok j ∧
        jsIndex j "message"
          = .ok (JsValue.str "Aquisitions API is running!")) :=
  ⟨healthTest_ok_iff parse rh, rootTest_ok_iff rr, apiTest_ok_iff parse ra⟩

/-- Witness for C4: the root test on the expected greeting body. -/
theorem harness_assertions_witness :
    rootTest ⟨200, [], "Hello from acquisitions api"⟩ = Except.ok () :=
  ((harness_assertions (fun _ => Except.error JsError.syntaxError)
      ⟨200, [], ""⟩ ⟨200, [], "Hello from acquisitions api"⟩
      ⟨200, [], ""⟩).2.1).mpr ⟨rfl, rfl⟩

/-- C5: `makeRequest` issues one GET with `Content-Type:
application/json` to `localhost` on the fixed test port `3001` (which
differs from the documented application default `3000`); given a
response it resolves with `{statusCode, headers, data}` where `data`
is the concatenation of all received chunks; given a connection-level
error it rejects with that very error, and the single transport
outcome it consumes leaves no room for a retry. -/
theorem makeRequest_contract (path : String) (outcome : TransportOutcome) :
    (makeRequest path outcome).1
        = ⟨"localhost", 3001, path, "GET",
           [("Content-Type", "application/json")]⟩ ∧
    (makeRequest path outcome).1.port ≠ 3000 ∧
    (∀ sc hs chunks, outcome = .response sc hs chunks →
      (makeRequest path outcome).2 = .ok ⟨sc, hs, String.join chunks⟩) ∧
    (∀ e, outcome = .connError e →
      (makeRequest path outcome).2 = .error e) := by
  refine ⟨rfl, by simp [makeRequest, port], ?_, ?_⟩
  · rintro sc hs chunks rfl
    rfl
  · rintro e rfl
    rfl

/-- Witness for C5: two chunks are concatenated in order. -/
theorem makeRequest_contract_witness :
    (makeRequest "/health" (TransportOutcome.response 200 [] ["ab", "c"])).2
      = Except.ok ⟨200, [], "abc"⟩ := by
  have h := (makeRequest_contract "/health"
    (.response 200 [] ["ab", "c"])).2.2.1 200 [] ["ab", "c"] rfl
  rw [h]
  rfl

/-- Lifecycle states of the harness listener. -/
inductive HState where
  | notStarted
  | listening
  | closed

/-- The mutable state of the test group: the `server` variable, the
listener lifecycle state, and how many times `server.close` ran. -/
structure SuiteState where
  server : Option Unit
  hstate : HState
  closeCount : Nat

/-- The `before` hook of `src/app.test.js`: `http.createServer(app)`
assigned to `server`, then `listen` awaited — the listener is bound. -/
def beforeHook (s : SuiteState) : SuiteState :=
  { s with server := some (), hstate := .listening }

/-- The `after` hook of `src/app.test.js`: `if (server) { await
new Promise(resolve => server.close(resolve)) }`. -/
def afterHook (s : SuiteState) : SuiteState :=
  match s.server with
  | some _ => { s with hstate := .closed, closeCount := s.closeCount + 1 }
  | none => s

/-- One test body: it issues a request and asserts on the response,
and whether it passes or fails it neither rebinds nor closes the
listener. -/
def runTest (s : SuiteState) (_outcome : Bool) : SuiteState := s

/-- Modelled from the spec: the test runner executes the `before` hook
once, then every test in the group in order regardless of individual
failures, then the `after` hook exactly once. -/
def runGroup (outcomes : List Bool) : SuiteState :=
  afterHook (outcomes.foldl runTest (beforeHook ⟨none, .notStarted, 0⟩))

/-- Test bodies leave the suite state untouched. -/
theorem foldl_runTest (outcomes : List Bool) (s : SuiteState) :
    outcomes.foldl runTest s = s := by
  induction outcomes generalizing s with
  | nil => rfl
  | cons o rest ih => exact ih s

/-- C6: however the individual tests fare, a run of the group ends
with the listener closed and `server.close` having run exactly once —
teardown is never skipped and never repeated. -/
theorem teardown_guarantee (outcomes : List Bool) :
    (runGroup outcomes).hstate = HState.closed ∧
    (runGroup outcomes).closeCount = 1 := by
  constructor <;> rw [runGroup, foldl_runTest] <;> rfl

end Acquisitions
